import Mathlib

/-!
Shallow embedding of the spaced-repetition learning service
(`src/utils/spaced-repetition.ts`, the study-item database schema, and the
six MCP tool operations of the service file).

Modelling conventions:
- Wall-clock time is threaded explicitly: `nowMs` is the value of
  `Date.now()` / `new Date().getTime()` (milliseconds since epoch) at the
  moment of the call, a `Nat` (current wall-clock values are nonnegative,
  and `Math.floor` on nonnegative reals coincides with `Nat` division).
- The persistent store is a `List StudyItem`; a SQL `UPDATE ... WHERE` is a
  `List.map` of a row transformer, a `SELECT ... WHERE ... ORDER BY` is a
  `List.filter` followed by `List.mergeSort` (SQL guarantees the multiset of
  rows and the ordering, which is what `Perm` + `Pairwise` capture).
- Identifier generation (`crypto.randomUUID`) and ISO-8601 date parsing
  (`new Date(s).getTime()`) are host primitives; they appear as explicit
  arguments (`id : String`, `parse : String → Option Nat`, returning
  milliseconds, `none` when the string does not parse, i.e. JS `NaN`).
- JavaScript truthiness is modelled faithfully: `if (content)`, `if (type)`
  and `dueBefore ? _ : _` treat the empty string as absent.
-/

namespace StudyService

/-- The recall-strength enumeration `'weak' | 'medium' | 'strong'`. -/
inductive RecallStrength
  | weak
  | medium
  | strong
deriving DecidableEq

/-- `SpacedRepetitionSettings` from `spaced-repetition.ts`: hour counts per
recall strength. -/
structure SpacedRepetitionSettings where
  weakInterval : Nat
  mediumInterval : Nat
  strongInterval : Nat
deriving DecidableEq

/-- `DEFAULT_SETTINGS = { weakInterval: 1, mediumInterval: 24, strongInterval: 72 }`. -/
def DEFAULT_SETTINGS : SpacedRepetitionSettings :=
  { weakInterval := 1, mediumInterval := 24, strongInterval := 72 }

/-- The table lookup `settings[recallStrength + "Interval"]`. -/
def SpacedRepetitionSettings.interval
    (settings : SpacedRepetitionSettings) : RecallStrength → Nat
  | .weak => settings.weakInterval
  | .medium => settings.mediumInterval
  | .strong => settings.strongInterval

/-- `calculateNextReview(recallStrength, settings)`:
`new Date(now.getTime() + hoursToAdd * 60 * 60 * 1000)`, with the clock read
`now = new Date()` passed explicitly as `nowMs`.  Returns milliseconds. -/
def calculateNextReview (recallStrength : RecallStrength)
    (settings : SpacedRepetitionSettings) (nowMs : Nat) : Nat :=
  nowMs + settings.interval recallStrength * 60 * 60 * 1000

/-- The closed `level` enumeration of the `study_items` schema. -/
inductive Level
  | A1 | A2 | B1 | B2 | C1 | C2
  | easy | medium | hard
deriving DecidableEq

/-- One row of the `study_items` table.  Integer timestamp columns hold
seconds since epoch; `tags` is a JSON column that may be `null` at runtime
(hence `Option`); `lastReviewed` and `notes` are nullable. -/
structure StudyItem where
  id : String
  userId : String
  type : String
  content : String
  level : Level
  tags : Option (List String)
  recallStrength : RecallStrength
  lastReviewed : Option Nat
  nextReview : Nat
  notes : Option String
  createdAt : Nat
  updatedAt : Nat
deriving DecidableEq

/-- Result payload of `create_study_item`: `{id, success:true}`. -/
structure CreateResult where
  id : String
  success : Bool
deriving DecidableEq

/-- Result payload of `update_study_performance`: `{success:true}`. -/
structure UpdateResult where
  success : Bool
deriving DecidableEq

/-- `create_study_item(userId, type, content, level, tags = [], notes)`.
`id` is the `generateId()` output (host primitive), `nowMs` the clock read
inside `calculateNextReview('weak')`.  The insert sets
`nextReview = Math.floor(nextReview.getTime() / 1000)` and leaves
`recallStrength`, `createdAt`, `updatedAt` to the schema defaults
(`'weak'` and `unixepoch()`, the insert-time clock in seconds);
`lastReviewed` stays null. -/
def create_study_item (store : List StudyItem) (id userId type content : String)
    (level : Level) (tags : List String) (notes : Option String)
    (nowMs : Nat) : List StudyItem × CreateResult :=
  let nextReview := calculateNextReview .weak DEFAULT_SETTINGS nowMs
  let row : StudyItem :=
    { id := id
      userId := userId
      type := type
      content := content
      level := level
      tags := some tags
      recallStrength := .weak
      lastReviewed := none
      nextReview := nextReview / 1000
      notes := notes
      createdAt := nowMs / 1000
      updatedAt := nowMs / 1000 }
  (store ++ [row], { id := id, success := true })

/-- The row transformer of `update_study_performance`'s single UPDATE
statement: rows matched by `WHERE id = ? AND user_id = ?` receive the new
`recallStrength`, `lastReviewed = now`, `nextReview`, `updatedAt = now`;
every other row is untouched. -/
def applyPerformance (id userId : String) (recallStrength : RecallStrength)
    (nowMs : Nat) (row : StudyItem) : StudyItem :=
  if row.id = id ∧ row.userId = userId then
    { row with
        recallStrength := recallStrength
        lastReviewed := some (nowMs / 1000)
        nextReview := calculateNextReview recallStrength DEFAULT_SETTINGS nowMs / 1000
        updatedAt := nowMs / 1000 }
  else row

/-- `update_study_performance(id, userId, recallStrength)`: one UPDATE over
the store, then `{success:true}` unconditionally (no row count is
inspected). -/
def update_study_performance (store : List StudyItem) (id userId : String)
    (recallStrength : RecallStrength) (nowMs : Nat) :
    List StudyItem × UpdateResult :=
  (store.map (applyPerformance id userId recallStrength nowMs),
   { success := true })

/-- JS `needle.isPrefixOf`-based model of `hay.includes(needle)`:
some tail of `hay` starts with `needle` (contiguous substring). -/
def listContains (hay needle : List Char) : Bool :=
  hay.tails.any fun t => needle.isPrefixOf t

/-- `s.toLowerCase()`, modelled characterwise. -/
def lowerChars (s : String) : List Char :=
  s.toList.map Char.toLower

/-- `item.content.toLowerCase().includes(content.toLowerCase())`. -/
def containsLower (hay needle : String) : Bool :=
  listContains (lowerChars hay) (lowerChars needle)

/-- `item.tags?.includes(tag) || false`: a null `tags` column never matches. -/
def tagMatch (itemTags : Option (List String)) (tag : String) : Bool :=
  match itemTags with
  | some ts => ts.contains tag
  | none => false

/-- The storage-level WHERE clause of `search_study_items`: always
`user_id = ?`; `eq(type, ?)` and `eq(level, ?)` are appended only when the
argument is truthy (for `type`, a non-empty string; `level` values are
non-empty string literals, always truthy). -/
def searchWhere (userId : String) (type : Option String) (level : Option Level)
    (row : StudyItem) : Bool :=
  decide (row.userId = userId) &&
    (match type with
     | some t => if t = "" then true else decide (row.type = t)
     | none => true) &&
    (match level with
     | some l => decide (row.level = l)
     | none => true)

/-- The in-memory post-filter of `search_study_items`: `if (content)` keeps
rows whose content contains it case-insensitively (skipped for the falsy
empty string); `if (tags && tags.length > 0)` keeps rows sharing at least
one tag. -/
def searchMemFilter (content : Option String) (tags : Option (List String))
    (row : StudyItem) : Bool :=
  (match content with
   | some c => if c = "" then true else containsLower row.content c
   | none => true) &&
    (match tags with
     | some ts => if ts = [] then true else ts.any fun tag => tagMatch row.tags tag
     | none => true)

/-- `search_study_items(userId, content?, tags?, type?, level?)`: SELECT with
`searchWhere`, `ORDER BY updated_at DESC`, then the in-memory filter. -/
def search_study_items (store : List StudyItem) (userId : String)
    (content : Option String) (tags : Option (List String))
    (type : Option String) (level : Option Level) : List StudyItem :=
  let results := (store.filter (searchWhere userId type level)).mergeSort
    fun a b => b.updatedAt ≤ a.updatedAt
  results.filter (searchMemFilter content tags)

/-- The WHERE clause of `get_items_for_review`: `user_id = ?`,
`next_review <= threshold`, and optionally `recall_strength = ?`. -/
def reviewWhere (userId : String) (recallStrength : Option RecallStrength)
    (threshold : Nat) (row : StudyItem) : Bool :=
  decide (row.userId = userId) && decide (row.nextReview ≤ threshold) &&
    (match recallStrength with
     | some s => decide (row.recallStrength = s)
     | none => true)

/-- The SELECT of `get_items_for_review`: filter by `reviewWhere`,
`ORDER BY next_review ASC`. -/
def reviewQuery (store : List StudyItem) (userId : String)
    (recallStrength : Option RecallStrength) (threshold : Nat) :
    List StudyItem :=
  (store.filter (reviewWhere userId recallStrength threshold)).mergeSort
    fun a b => a.nextReview ≤ b.nextReview

/-- `get_items_for_review(userId, recallStrength?, dueBefore?)`.
`parse` models `new Date(s).getTime()` (milliseconds; `none` for an invalid
date, JS `NaN`).  `dueBefore ? ... : now` treats the falsy empty string as
absent.  When a non-empty `dueBefore` does not parse, the computed
`Math.floor(NaN / 1000)` is `NaN` and the storage driver rejects a non-finite
bound parameter with a type error; the surrounding `try`/`catch` converts it
to the `{error, success:false}` payload, modelled as `Except.error`. -/
def get_items_for_review (parse : String → Option Nat)
    (store : List StudyItem) (userId : String)
    (recallStrength : Option RecallStrength) (dueBefore : Option String)
    (nowMs : Nat) : Except String (List StudyItem) :=
  let now := nowMs / 1000
  match dueBefore with
  | none => .ok (reviewQuery store userId recallStrength now)
  | some s =>
    if s = "" then .ok (reviewQuery store userId recallStrength now)
    else
      match parse s with
      | some t => .ok (reviewQuery store userId recallStrength (t / 1000))
      | none => .error "D1_TYPE_ERROR: invalid bound parameter"

/-- `get_study_types(userId)`: `selectDistinct({type}) ... where user_id = ?`. -/
def get_study_types (store : List StudyItem) (userId : String) : List String :=
  ((store.filter fun r => decide (r.userId = userId)).map (·.type)).dedup

/-- The stats object of `get_learning_stats`.  The dynamic `byLevel` /
`byType` maps are modelled as their count functions (only keys actually
present have non-zero counts). -/
structure LearningStats where
  total : Nat
  weakCount : Nat
  mediumCount : Nat
  strongCount : Nat
  byLevel : Level → Nat
  byType : String → Nat
  dueForReview : Nat
  reviewedToday : Nat

/-- `get_learning_stats(userId)`: one SELECT of all of the user's rows,
then in-memory aggregation (`now` is `Math.floor(Date.now() / 1000)`). -/
def get_learning_stats (store : List StudyItem) (userId : String)
    (nowMs : Nat) : LearningStats :=
  let allItems := store.filter fun r => decide (r.userId = userId)
  let now := nowMs / 1000
  { total := allItems.length
    weakCount := (allItems.filter fun r => decide (r.recallStrength = .weak)).length
    mediumCount := (allItems.filter fun r => decide (r.recallStrength = .medium)).length
    strongCount := (allItems.filter fun r => decide (r.recallStrength = .strong)).length
    byLevel := fun l => (allItems.filter fun r => decide (r.level = l)).length
    byType := fun t => (allItems.filter fun r => decide (r.type = t)).length
    dueForReview := (allItems.filter fun r => decide (r.nextReview ≤ now)).length
    reviewedToday := (allItems.filter fun r =>
      match r.lastReviewed with
      | some lr => decide (now - 86400 ≤ lr)
      | none => false).length }

/-- Sample row owned by user `A` (used to instantiate witnesses). -/
def sampleA : StudyItem :=
  { id := "i1", userId := "A", type := "vocab", content := "Hello World"
    level := .A1, tags := some ["x", "y"], recallStrength := .weak
    lastReviewed := none, nextReview := 100, notes := none
    createdAt := 50, updatedAt := 60 }

/-- Sample row owned by user `B` sharing `sampleA`'s id. -/
def sampleB : StudyItem :=
  { sampleA with userId := "B", content := "bonjour", updatedAt := 70 }

/-- Sample row of user `A` whose `tags` column is null. -/
def sampleNoTags : StudyItem :=
  { sampleA with id := "i3", tags := none, updatedAt := 80 }

/-- Sample row of user `A` with tags `["y","z"]`. -/
def sampleYZ : StudyItem :=
  { sampleA with id := "i4", tags := some ["y", "z"], updatedAt := 90 }

/-- Sample model of the ISO-date primitive (used by witnesses). -/
def parseSample : String → Option Nat :=
  fun s => if s = "2024" then some 5000 else none

/-- The storage filter of `search_study_items` as the C8 claim words it:
`type` and `level` are exact matches whenever supplied (no truthiness
escape for the empty `type` string). -/
def searchWhereClaimed (userId : String) (type : Option String)
    (level : Option Level) (row : StudyItem) : Bool :=
  decide (row.userId = userId) &&
    (match type with
     | some t => decide (row.type = t)
     | none => true) &&
    (match level with
     | some l => decide (row.level = l)
     | none => true)

/-- The in-memory filter as the C8 claim words it: a supplied `content` is
a case-insensitive substring test; a supplied non-empty `tags` list keeps
rows sharing at least one tag. -/
def searchMemClaimed (content : Option String) (tags : Option (List String))
    (row : StudyItem) : Bool :=
  (match content with
   | some c => containsLower row.content c
   | none => true) &&
    (match tags with
     | some ts => if ts = [] then true
                  else ts.any fun tag => tagMatch row.tags tag
     | none => true)

/-- `search_study_items` as the C8 claim describes it (refinement target
for comparison with the source-derived definition). -/
def search_study_items_claimed (store : List StudyItem) (userId : String)
    (content : Option String) (tags : Option (List String))
    (type : Option String) (level : Option Level) : List StudyItem :=
  ((store.filter (searchWhereClaimed userId type level)).mergeSort
      fun a b => b.updatedAt ≤ a.updatedAt).filter
    (searchMemClaimed content tags)

theorem mem_search_iff (store : List StudyItem) (u : String)
    (content : Option String) (tags : Option (List String))
    (type : Option String) (level : Option Level) (r : StudyItem) :
    r ∈ search_study_items store u content tags type level ↔
      r ∈ store ∧ searchWhere u type level r = true ∧
        searchMemFilter content tags r = true := by
  unfold search_study_items
  simp only [List.mem_filter]
  rw [(List.mergeSort_perm _ _).mem_iff, List.mem_filter]
  tauto

theorem mem_reviewQuery_iff (store : List StudyItem) (u : String)
    (strength : Option RecallStrength) (threshold : Nat) (r : StudyItem) :
    r ∈ reviewQuery store u strength threshold ↔
      r ∈ store ∧ reviewWhere u strength threshold r = true := by
  unfold reviewQuery
  rw [(List.mergeSort_perm _ _).mem_iff, List.mem_filter]

theorem default_interval_weak : DEFAULT_SETTINGS.interval .weak = 1 := rfl

theorem default_interval_medium : DEFAULT_SETTINGS.interval .medium = 24 := rfl

theorem default_interval_strong : DEFAULT_SETTINGS.interval .strong = 72 := rfl

theorem reviewQuery_sorted (store : List StudyItem) (u : String)
    (strength : Option RecallStrength) (threshold : Nat) :
    (reviewQuery store u strength threshold).Pairwise
      (fun a b => a.nextReview ≤ b.nextReview) := by
  unfold reviewQuery
  have trns : ∀ a b c : StudyItem,
      decide (a.nextReview ≤ b.nextReview) = true →
      decide (b.nextReview ≤ c.nextReview) = true →
      decide (a.nextReview ≤ c.nextReview) = true := by
    intro a b c hab hbc
    simp only [decide_eq_true_eq] at hab hbc ⊢
    omega
  have tot : ∀ a b : StudyItem,
      (decide (a.nextReview ≤ b.nextReview)
        || decide (b.nextReview ≤ a.nextReview)) = true := by
    intro a b
    simp only [Bool.or_eq_true, decide_eq_true_eq]
    omega
  have h := List.sorted_mergeSort trns tot
    (store.filter (reviewWhere u strength threshold))
  exact h.imp fun hab => by simpa using hab

/-- **C1**: `calculateNextReview(s, settings)` returns `now + hours(s)` (in
milliseconds, `hours(s)` being the settings entry for `s`), and with a
positive configured interval the result is strictly greater than `now`. -/
theorem claim_C1_scheduler_offset (s : RecallStrength)
    (settings : SpacedRepetitionSettings) (nowMs : Nat)
    (hpos : 0 < settings.interval s) :
    calculateNextReview s settings nowMs
        = nowMs + settings.interval s * 60 * 60 * 1000 ∧
      nowMs < calculateNextReview s settings nowMs := by
  refine ⟨rfl, ?_⟩
  unfold calculateNextReview
  omega

theorem claim_C1_scheduler_offset_witness :
    calculateNextReview .weak DEFAULT_SETTINGS 1000
        = 1000 + DEFAULT_SETTINGS.interval .weak * 60 * 60 * 1000 ∧
      1000 < calculateNextReview .weak DEFAULT_SETTINGS 1000 :=
  claim_C1_scheduler_offset .weak DEFAULT_SETTINGS 1000 (by decide)

/-- **C9**: with `DEFAULT_SETTINGS`, at any single instant the scheduled
next-review time is strictly monotone in recall strength:
weak < medium < strong (1h < 24h < 72h). -/
theorem claim_C9_monotone (nowMs : Nat) :
    calculateNextReview .weak DEFAULT_SETTINGS nowMs
        < calculateNextReview .medium DEFAULT_SETTINGS nowMs ∧
      calculateNextReview .medium DEFAULT_SETTINGS nowMs
        < calculateNextReview .strong DEFAULT_SETTINGS nowMs := by
  unfold calculateNextReview
  rw [default_interval_weak, default_interval_medium, default_interval_strong]
  omega

/-- **C5**: every row inserted by `create_study_item` has
`recallStrength = weak` and `nextReview = createdAt + 3600` seconds
(creation time + 1 hour, the default weak interval), whatever the supplied
`type`, `content`, `level`, `tags`, `notes`; the caller supplies neither
`recallStrength` nor `nextReview`. -/
theorem claim_C5_create_defaults (store : List StudyItem)
    (id userId type content : String) (level : Level) (tags : List String)
    (notes : Option String) (nowMs : Nat) :
    create_study_item store id userId type content level tags notes nowMs
      = (store ++ [{ id := id, userId := userId, type := type
                     content := content, level := level, tags := some tags
                     recallStrength := .weak, lastReviewed := none
                     nextReview := nowMs / 1000 + 3600, notes := notes
                     createdAt := nowMs / 1000, updatedAt := nowMs / 1000 }],
         { id := id, success := true }) := by
  have harith : calculateNextReview .weak DEFAULT_SETTINGS nowMs / 1000
      = nowMs / 1000 + 3600 := by
    unfold calculateNextReview
    rw [default_interval_weak]
    omega
  simp only [create_study_item]
  rw [harith]

/-- **C7**: `update_study_performance` reports `{success:true}`
unconditionally; when no row matches `(id, userId)` the store is unchanged,
so a no-match update is indistinguishable from a successful one. -/
theorem claim_C7_silent_no_match (store : List StudyItem) (id userId : String)
    (recallStrength : RecallStrength) (nowMs : Nat)
    (hnone : ∀ r ∈ store, ¬(r.id = id ∧ r.userId = userId)) :
    (update_study_performance store id userId recallStrength nowMs).2
        = { success := true } ∧
      (update_study_performance store id userId recallStrength nowMs).1
        = store := by
  refine ⟨rfl, ?_⟩
  unfold update_study_performance
  have h : ∀ r ∈ store, applyPerformance id userId recallStrength nowMs r = r := by
    intro r hr
    unfold applyPerformance
    rw [if_neg (hnone r hr)]
  exact (List.map_congr_left h).trans (List.map_id store)

theorem claim_C7_silent_no_match_witness :
    (update_study_performance [sampleB] "i1" "A" .medium 7200000).2
        = { success := true } ∧
      (update_study_performance [sampleB] "i1" "A" .medium 7200000).1
        = [sampleB] :=
  claim_C7_silent_no_match [sampleB] "i1" "A" .medium 7200000 (by decide)

theorem searchWhere_userId {u : String} {type : Option String}
    {level : Option Level} {r : StudyItem}
    (h : searchWhere u type level r = true) : r.userId = u := by
  unfold searchWhere at h
  simp only [Bool.and_eq_true, decide_eq_true_eq] at h
  exact h.1.1

theorem reviewWhere_userId {u : String} {strength : Option RecallStrength}
    {threshold : Nat} {r : StudyItem}
    (h : reviewWhere u strength threshold r = true) : r.userId = u := by
  unfold reviewWhere at h
  simp only [Bool.and_eq_true, decide_eq_true_eq] at h
  exact h.1.1

theorem get_items_ok_shape (parse : String → Option Nat)
    (store : List StudyItem) (u : String) (strength : Option RecallStrength)
    (dueBefore : Option String) (nowMs : Nat) (items : List StudyItem)
    (h : get_items_for_review parse store u strength dueBefore nowMs
      = .ok items) :
    ∃ threshold, items = reviewQuery store u strength threshold := by
  cases dueBefore with
  | none =>
    simp only [get_items_for_review, Except.ok.injEq] at h
    exact ⟨nowMs / 1000, h.symm⟩
  | some s =>
    simp only [get_items_for_review] at h
    by_cases hs : s = ""
    · rw [if_pos hs] at h
      simp only [Except.ok.injEq] at h
      exact ⟨nowMs / 1000, h.symm⟩
    · rw [if_neg hs] at h
      cases hp : parse s with
      | some t =>
        rw [hp] at h
        simp only [Except.ok.injEq] at h
        exact ⟨t / 1000, h.symm⟩
      | none =>
        rw [hp] at h
        simp at h

/-- **C6**: a row matched by `update_study_performance(id, userId, strong)`
is mapped into the new store with `nextReview = now + 72h` (in seconds,
default settings), `lastReviewed` and `updatedAt` set to the update time,
`recallStrength` rewritten, and `id`, `type`, `content`, `level`, `tags`,
`notes`, `createdAt` untouched (the record update fixes all other fields). -/
theorem claim_C6_update_strong_frame (store : List StudyItem)
    (row : StudyItem) (id userId : String) (nowMs : Nat)
    (hmem : row ∈ store) (hid : row.id = id) (huser : row.userId = userId) :
    applyPerformance id userId .strong nowMs row
        ∈ (update_study_performance store id userId .strong nowMs).1 ∧
      applyPerformance id userId .strong nowMs row
        = { row with
              recallStrength := .strong
              lastReviewed := some (nowMs / 1000)
              nextReview := nowMs / 1000 + 259200
              updatedAt := nowMs / 1000 } := by
  constructor
  · exact List.mem_map_of_mem _ hmem
  · unfold applyPerformance
    rw [if_pos ⟨hid, huser⟩]
    have harith : calculateNextReview .strong DEFAULT_SETTINGS nowMs / 1000
        = nowMs / 1000 + 259200 := by
      unfold calculateNextReview
      rw [default_interval_strong]
      omega
    rw [harith]

theorem claim_C6_update_strong_frame_witness :
    applyPerformance "i1" "A" .strong 7200000 sampleA
        ∈ (update_study_performance [sampleA] "i1" "A" .strong 7200000).1 ∧
      applyPerformance "i1" "A" .strong 7200000 sampleA
        = { sampleA with
              recallStrength := .strong
              lastReviewed := some (7200000 / 1000)
              nextReview := 7200000 / 1000 + 259200
              updatedAt := 7200000 / 1000 } :=
  claim_C6_update_strong_frame [sampleA] sampleA "i1" "A" 7200000
    (by decide) rfl rfl

/-- **C2**: cross-user isolation.  `update_study_performance` with caller
`A` leaves every row of another user fixed (in particular one sharing the
same `id`) and reports `{success:true}` about its own rows only; every read
operation (`search_study_items`, `get_items_for_review`,
`get_study_types`, `get_learning_stats`) reflects only rows whose `userId`
is the caller-supplied one, and `create_study_item` writes only a row owned
by the caller. -/
theorem claim_C2_cross_user_isolation
    (store : List StudyItem) (id A ty cont : String) (lvl : Level)
    (tg : List String) (nt : Option String) (rs : RecallStrength)
    (nowMs : Nat) (content : Option String) (tags : Option (List String))
    (type : Option String) (level : Option Level)
    (strength : Option RecallStrength) (dueBefore : Option String)
    (parse : String → Option Nat) :
    (∀ row : StudyItem, row.userId ≠ A →
        applyPerformance id A rs nowMs row = row) ∧
      (update_study_performance store id A rs nowMs).1
          = store.map (applyPerformance id A rs nowMs) ∧
      (update_study_performance store id A rs nowMs).2
          = { success := true } ∧
      (∀ r ∈ search_study_items store A content tags type level,
        r.userId = A) ∧
      (∀ items, get_items_for_review parse store A strength dueBefore nowMs
          = .ok items → ∀ r ∈ items, r.userId = A) ∧
      (∀ t ∈ get_study_types store A, ∃ r ∈ store, r.userId = A ∧
        r.type = t) ∧
      (∀ r ∈ (create_study_item store id A ty cont lvl tg nt nowMs).1,
        r ∈ store ∨ r.userId = A) ∧
      get_learning_stats store A nowMs
        = get_learning_stats (store.filter fun r => decide (r.userId = A))
            A nowMs := by
  refine ⟨?_, rfl, rfl, ?_, ?_, ?_, ?_, ?_⟩
  · intro row h
    unfold applyPerformance
    rw [if_neg]
    rintro ⟨-, h2⟩
    exact h h2
  · intro r hr
    exact searchWhere_userId ((mem_search_iff _ _ _ _ _ _ _).mp hr).2.1
  · intro items hok r hr
    obtain ⟨threshold, rfl⟩ :=
      get_items_ok_shape parse store A strength dueBefore nowMs items hok
    exact reviewWhere_userId ((mem_reviewQuery_iff _ _ _ _ _).mp hr).2
  · intro t ht
    unfold get_study_types at ht
    rw [List.mem_dedup] at ht
    obtain ⟨r, hr, rfl⟩ := List.mem_map.mp ht
    obtain ⟨hrs, hru⟩ := List.mem_filter.mp hr
    exact ⟨r, hrs, by simpa using hru, rfl⟩
  · intro r hr
    simp only [create_study_item, List.mem_append, List.mem_singleton] at hr
    cases hr with
    | inl h => exact Or.inl h
    | inr h => exact Or.inr (by rw [h])
  · simp [get_learning_stats, List.filter_filter]

theorem claim_C2_cross_user_isolation_witness :
    applyPerformance "i1" "A" .strong 0 sampleB = sampleB :=
  (claim_C2_cross_user_isolation [sampleB] "i1" "A" "t" "c" .A1 [] none
    .strong 0 none none none none none none (fun _ => none)).1
    sampleB (by decide)

/-- **C3**: `get_items_for_review` succeeds and returns exactly the
caller's rows with `nextReview ≤ threshold` — `threshold` being the parsed
`dueBefore` when one is supplied and the call-time clock otherwise — with
the optional exact `recallStrength` filter, sorted by `nextReview`
ascending; the boundary is inclusive (`nextReview = threshold` is in,
strictly greater is out). -/
theorem claim_C3_due_query
    (parse : String → Option Nat) (store : List StudyItem) (u : String)
    (strength : Option RecallStrength) (dueBefore : Option String)
    (nowMs threshold : Nat)
    (hempty : parse "" = none)
    (hthreshold : (dueBefore = none ∧ threshold = nowMs / 1000) ∨
      ∃ s t, dueBefore = some s ∧ parse s = some t ∧ threshold = t / 1000) :
    ∃ items,
      get_items_for_review parse store u strength dueBefore nowMs
          = .ok items ∧
        items.Perm (store.filter fun r =>
          decide (r.userId = u) && decide (r.nextReview ≤ threshold) &&
            match strength with
            | some s => decide (r.recallStrength = s)
            | none => true) ∧
        items.Pairwise (fun a b => a.nextReview ≤ b.nextReview) ∧
        ∀ r ∈ store, r.userId = u →
          (match strength with
           | some s => r.recallStrength = s
           | none => True) →
          (r.nextReview ≤ threshold ↔ r ∈ items) := by
  have hok : get_items_for_review parse store u strength dueBefore nowMs
      = .ok (reviewQuery store u strength threshold) := by
    rcases hthreshold with ⟨hd, ht⟩ | ⟨s, t, hd, hp, ht⟩
    · rw [hd, ht]
      rfl
    · have hs : s ≠ "" := by
        intro h
        rw [h, hempty] at hp
        cases hp
      rw [hd, ht]
      simp only [get_items_for_review]
      rw [if_neg hs, hp]
  refine ⟨reviewQuery store u strength threshold, hok, ?_, ?_, ?_⟩
  · exact List.mergeSort_perm _ _
  · exact reviewQuery_sorted store u strength threshold
  · intro r hrs hru hstr
    rw [mem_reviewQuery_iff]
    unfold reviewWhere
    simp only [Bool.and_eq_true, decide_eq_true_eq]
    constructor
    · intro hle
      refine ⟨hrs, ⟨hru, hle⟩, ?_⟩
      cases strength with
      | none => rfl
      | some s => simpa using hstr
    · rintro ⟨-, ⟨-, hle⟩, -⟩
      exact hle

theorem claim_C3_due_query_witness :
    ∃ items,
      get_items_for_review parseSample [sampleA] "A" none (some "2024")
          123000 = .ok items ∧
        items.Perm ([sampleA].filter fun r =>
          decide (r.userId = "A") && decide (r.nextReview ≤ 5) &&
            match (none : Option RecallStrength) with
            | some s => decide (r.recallStrength = s)
            | none => true) ∧
        items.Pairwise (fun a b => a.nextReview ≤ b.nextReview) ∧
        ∀ r ∈ [sampleA], r.userId = "A" →
          (match (none : Option RecallStrength) with
           | some s => r.recallStrength = s
           | none => True) →
          (r.nextReview ≤ 5 ↔ r ∈ items) :=
  claim_C3_due_query parseSample [sampleA] "A" none (some "2024") 123000 5
    (by decide) (Or.inr ⟨"2024", 5000, rfl, by decide, by decide⟩)

theorem containsLower_empty (s : String) : containsLower s "" = true := by
  unfold containsLower listContains
  rw [List.any_eq_true]
  refine ⟨[], ?_, ?_⟩
  · rw [List.mem_tails]
    exact List.nil_suffix
  · rfl

theorem searchWhere_eq_claimed (u : String) (type : Option String)
    (level : Option Level) (r : StudyItem) (htype : type ≠ some "") :
    searchWhere u type level r = searchWhereClaimed u type level r := by
  cases type with
  | none => rfl
  | some t =>
    have ht : ¬(t = "") := fun h => htype (by rw [h])
    simp [searchWhere, searchWhereClaimed, ht]

theorem searchMemFilter_eq_claimed (content : Option String)
    (tags : Option (List String)) (r : StudyItem) :
    searchMemFilter content tags r = searchMemClaimed content tags r := by
  cases content with
  | none => rfl
  | some c =>
    by_cases hc : c = ""
    · subst hc
      simp [searchMemFilter, searchMemClaimed, containsLower_empty]
    · simp [searchMemFilter, searchMemClaimed, hc]

theorem search_sorted (store : List StudyItem) (u : String)
    (content : Option String) (tags : Option (List String))
    (type : Option String) (level : Option Level) :
    (search_study_items store u content tags type level).Pairwise
      (fun a b => b.updatedAt ≤ a.updatedAt) := by
  simp only [search_study_items]
  have trns : ∀ a b c : StudyItem,
      decide (b.updatedAt ≤ a.updatedAt) = true →
      decide (c.updatedAt ≤ b.updatedAt) = true →
      decide (c.updatedAt ≤ a.updatedAt) = true := by
    intro a b c hab hbc
    simp only [decide_eq_true_eq] at hab hbc ⊢
    omega
  have tot : ∀ a b : StudyItem,
      (decide (b.updatedAt ≤ a.updatedAt)
        || decide (a.updatedAt ≤ b.updatedAt)) = true := by
    intro a b
    simp only [Bool.or_eq_true, decide_eq_true_eq]
    omega
  have h := List.sorted_mergeSort trns tot
    (store.filter (searchWhere u type level))
  exact (h.imp fun hab => by simpa using hab).filter _

/-- **C8 (counterexample)**: with a supplied empty `type` string the code
skips the storage filter (JS truthiness) and returns `sampleA` (whose type
is `"vocab"`), while the claimed exact-match filter would return nothing:
the claim as stated fails at `type = some ""`. -/
theorem claim_C8_counterexample :
    search_study_items [sampleA] "A" none none (some "") none = [sampleA] ∧
      search_study_items_claimed [sampleA] "A" none none (some "") none
        = [] := by
  constructor
  · simp only [search_study_items]
    rw [show List.filter (searchWhere "A" (some "") none) [sampleA]
          = [sampleA] from rfl,
        List.mergeSort_singleton]
    rfl
  · simp only [search_study_items_claimed]
    rw [show List.filter (searchWhereClaimed "A" (some "") none) [sampleA]
          = ([] : List StudyItem) from rfl,
        List.mergeSort_nil]
    rfl

/-- **C8 (amended)**: for every call with a `type` argument that is not the
empty string (a supplied empty `type` is falsy in JS and disables that
filter), the result is exactly the rows passing the claim's filters —
`userId` scope, exact `type`/`level` match, case-insensitive `content`
substring, non-empty `tags` intersection — ordered by `updatedAt`
descending; e.g. a `["x"]` tags filter keeps a row tagged `["x","y"]` and
drops one tagged `["y","z"]`. -/
theorem claim_C8_search_filters (store : List StudyItem) (u : String)
    (content : Option String) (tags : Option (List String))
    (type : Option String) (level : Option Level)
    (htype : type ≠ some "") :
    (search_study_items store u content tags type level).Perm
        (store.filter fun r =>
          searchWhereClaimed u type level r
            && searchMemClaimed content tags r) ∧
      (search_study_items store u content tags type level).Pairwise
        (fun a b => b.updatedAt ≤ a.updatedAt) ∧
      searchMemClaimed none (some ["x"]) sampleA = true ∧
      searchMemClaimed none (some ["x"]) sampleYZ = false := by
  refine ⟨?_, search_sorted store u content tags type level, by decide,
    by decide⟩
  simp only [search_study_items]
  have p1 := (List.mergeSort_perm (store.filter (searchWhere u type level))
    fun a b => decide (b.updatedAt ≤ a.updatedAt)).filter
    (searchMemFilter content tags)
  refine p1.trans ?_
  rw [List.filter_filter]
  have heq : ∀ r ∈ store,
      (searchMemFilter content tags r && searchWhere u type level r)
        = (searchWhereClaimed u type level r
            && searchMemClaimed content tags r) := by
    intro r _
    rw [searchMemFilter_eq_claimed,
      searchWhere_eq_claimed u type level r htype, Bool.and_comm]
  rw [List.filter_congr heq]

theorem claim_C8_search_filters_witness :
    (search_study_items [sampleA, sampleYZ] "A" (some "Lo wo") (some ["x"])
        (some "vocab") (some .A1)).Perm
        ([sampleA, sampleYZ].filter fun r =>
          searchWhereClaimed "A" (some "vocab") (some .A1) r
            && searchMemClaimed (some "Lo wo") (some ["x"]) r) ∧
      (search_study_items [sampleA, sampleYZ] "A" (some "Lo wo")
        (some ["x"]) (some "vocab") (some .A1)).Pairwise
        (fun a b => b.updatedAt ≤ a.updatedAt) ∧
      searchMemClaimed none (some ["x"]) sampleA = true ∧
      searchMemClaimed none (some ["x"]) sampleYZ = false :=
  claim_C8_search_filters [sampleA, sampleYZ] "A" (some "Lo wo")
    (some ["x"]) (some "vocab") (some .A1) (by decide)

/-- **C4 (counterexample)**: an unparseable `dueBefore` is not always
converted to an error payload: the empty string is falsy, so
`dueBefore ? ... : now` silently falls back to the call-time threshold and
the call returns a normal (here empty) item list. -/
theorem claim_C4_counterexample :
    (fun _ : String => (none : Option Nat)) "" = none ∧
      get_items_for_review (fun _ => none) [] "A" none (some "") 0
        = .ok [] := by
  constructor
  · rfl
  · simp [get_items_for_review, reviewQuery]

/-- **C4 (amended)**: a malformed *non-empty* `dueBefore` string reaches
the storage layer as a non-finite bound parameter, whose rejection the
operation boundary catches and converts to the `{error, success:false}`
payload (never an unhandled failure — the operation is total); a supplied
*empty* `dueBefore` is falsy, treated as absent, and yields a normal item
list thresholded at the call time. -/
theorem claim_C4_error_boundary (parse : String → Option Nat)
    (store : List StudyItem) (u : String)
    (strength : Option RecallStrength) (s : String) (nowMs : Nat)
    (hs : s ≠ "") (hparse : parse s = none) :
    get_items_for_review parse store u strength (some s) nowMs
        = .error "D1_TYPE_ERROR: invalid bound parameter" ∧
      get_items_for_review parse store u strength (some "") nowMs
        = .ok (reviewQuery store u strength (nowMs / 1000)) := by
  constructor
  · simp only [get_items_for_review]
    rw [if_neg hs, hparse]
  · rfl

theorem claim_C4_error_boundary_witness :
    get_items_for_review (fun _ => none) [sampleA] "A" none
        (some "garbage") 0
        = .error "D1_TYPE_ERROR: invalid bound parameter" ∧
      get_items_for_review (fun _ => none) [sampleA] "A" none (some "") 0
        = .ok (reviewQuery [sampleA] "A" none (0 / 1000)) :=
  claim_C4_error_boundary (fun _ => none) [sampleA] "A" none "garbage" 0
    (by decide) rfl

/-- **C10**: a row whose `tags` column is null is excluded — not an error —
by every supplied non-empty tags filter: `item.tags?.includes(tag) || false`
evaluates to `false` for each wanted tag, and the row never appears in a
`search_study_items` result with such a filter (the operation is a total
function over rows with missing tags). -/
theorem claim_C10_null_tags (item : StudyItem) (wanted : List String)
    (hnull : item.tags = none) (hne : wanted ≠ []) :
    (wanted.any fun tag => tagMatch item.tags tag) = false ∧
      ∀ store u content type level,
        item ∉ search_study_items store u content (some wanted) type level := by
  have hfalse : (wanted.any fun tag => tagMatch item.tags tag) = false := by
    rw [hnull]
    simp [tagMatch]
  refine ⟨hfalse, ?_⟩
  intro store u content type level hmem
  have h :=
    ((mem_search_iff store u content (some wanted) type level item).mp
      hmem).2.2
  simp only [searchMemFilter, Bool.and_eq_true] at h
  rw [if_neg hne, hfalse] at h
  exact Bool.false_ne_true h.2

theorem claim_C10_null_tags_witness :
    (["x"].any fun tag => tagMatch sampleNoTags.tags tag) = false ∧
      sampleNoTags ∉
        search_study_items [sampleNoTags] "A" none (some ["x"]) none none :=
  ⟨(claim_C10_null_tags sampleNoTags ["x"] rfl (by decide)).1,
   (claim_C10_null_tags sampleNoTags ["x"] rfl (by decide)).2
     [sampleNoTags] "A" none none none⟩

end StudyService
